import Mathlib

/-! wkhtmltopdf-go: the Document orchestration layer of document.go.

A shallow embedding of `document.go`.  A Go `*Page` is a pointer, so pages live
in a heap (`Ptr → Page`) and a `Document` holds a list of pointers; every
method that mutates a page does so through the heap.  The operating system
(temp directory creation, file writes, directory removal, running the external
renderer) is an `Env` of oracles whose answers may depend on the history of
earlier calls; every call is recorded, in order, in a trace of `Event`s.
A Go runtime fault (nil dereference) is the `Outcome.panic` result.  Page
pointers held by a Document are taken to be non-nil, as the constructors
return them.
-/

namespace Wkhtmltopdf

/-- Raw bytes, the content of a `bytes.Buffer`. -/
abbrev Bytes := List UInt8

/-- Modelled from the spec: the `Page` type (page.go is not among the sources).
Only its fields used by document.go are kept: the cover flag, the resolved
source (`filename`), the per-page option tokens, the in-memory flag `reader`
and the buffered content `buf`. -/
structure Page where
  cover : Bool
  filename : String
  options : List String
  reader : Bool
  buf : Bytes
deriving DecidableEq

/-- Modelled from the spec: `Page.args` (page.go is not among the sources), the
page's per-page options followed by its resolved source token.  The general
theorems below use a page's tokens only through this name and hold whatever
it returns. -/
def Page.args (pg : Page) : List String :=
  pg.options ++ [pg.filename]

/-- Modelled from the spec: the `Option` interface (options.go is not among the
sources); document.go only calls its method `opts()`, the option's tokens. -/
structure Opt where
  opts : List String
deriving DecidableEq

/-- A `*Page`. -/
abbrev Ptr := Nat

/-- The pages that page pointers refer to. -/
abbrev Heap := Ptr → Page

/-- The `Document` struct. -/
structure Document where
  pages : List Ptr
  options : List String
  tmp : String
deriving DecidableEq

/-- What one run of an external command yields: whether `cmd.Run()` returned a
nil error, and what the process wrote to its standard output and error. -/
structure RunResult where
  ok : Bool
  stdout : Bytes
  stderr : String
deriving DecidableEq

/-- One call to the outside world, with its arguments and its answer. -/
inductive Event where
  | mkTemp (dir pat : String) (res : Except String String)
  | writeFile (name : String) (data : Bytes) (err : Option String)
  | removeAll (path : String) (err : Option String)
  | run (name : String) (argv : List String) (stdin : Bytes) (res : RunResult)
  | write (data : Bytes) (n : Nat) (err : Option String)

/-- The package-level variables `TempDir`, `Executable_Wkhtmltopdf` and
`Executable_Xvfb` (declared outside document.go) and the operating system:
`ioutil.TempDir`, `ioutil.WriteFile`, `os.RemoveAll` and `exec.Cmd.Run`, each
answering from the history of calls so far and its arguments. -/
structure Env where
  TempDir : String
  Executable_Wkhtmltopdf : String
  Executable_Xvfb : String
  mkTemp : List Event → String → String → Except String String
  writeFile : List Event → String → Bytes → Option String
  removeAll : List Event → String → Option String
  run : List Event → String → List String → Bytes → RunResult

/-- An `io.Writer`: `Write(p)` returns the count written and an error or nil. -/
abbrev Writer := Bytes → Nat × Option String

/-- The mutable state a method runs in. -/
structure State where
  doc : Document
  heap : Heap
  trace : List Event

/-- Either a normal return or a Go runtime panic. -/
inductive Outcome (α : Type) where
  | ret (a : α)
  | panic (msg : String)
deriving DecidableEq

/-- Decimal digits of `fmt`'s `%d` for a non-negative integer. -/
def fmtD (n : Nat) : List Char := Nat.toDigits 10 n

/-- The verb `%08d` of `fmt.Sprintf` on a non-negative integer: decimal, padded
on the left with zeros to a width of at least 8. -/
def fmtD08 (n : Nat) : String :=
  String.mk (List.replicate (8 - (fmtD n).length) '0' ++ fmtD n)

/-- The result of `fmt.Sprintf("%v/%v/page%08d.html", TempDir, tmp, n)`. -/
def tempPageName (tempDir tmp : String) (n : Nat) : String :=
  tempDir ++ "/" ++ tmp ++ "/page" ++ fmtD08 n ++ ".html"

/-- The test helper `strings.HasPrefix(s, p)`. -/
def beginsWith (s p : String) : Bool := p.data.isPrefixOf s.data

/-- The value of a decimal digit string, read left to right. -/
def decodeDec (cs : List Char) : Nat :=
  cs.foldl (fun acc c => acc * 10 + (c.toNat - 48)) 0

/-- The function `NewDocument` before its options are added. -/
def emptyDocument : Document := { pages := [], options := [], tmp := "" }

/-- The method `AddOptions`. -/
def Document.AddOptions (doc : Document) (opts : List Opt) : Document :=
  opts.foldl (fun d opt => { d with options := d.options ++ opt.opts }) doc

/-- The function `NewDocument`. -/
def NewDocument (opts : List Opt) : Document :=
  emptyDocument.AddOptions opts

/-- The method `AddPages`. -/
def Document.AddPages (doc : Document) (pages : List Ptr) : Document :=
  { doc with pages := doc.pages ++ pages }

/-- The assignment `cover.cover = true` through the pointer. -/
def setCover (h : Heap) (cover : Ptr) : Heap :=
  Function.update h cover { h cover with cover := true }

/-- The method `AddCover`. -/
def Document.AddCover (doc : Document) (h : Heap) (cover : Ptr) : Document × Heap :=
  ({ doc with pages := doc.pages ++ [cover] }, setCover h cover)

/-- The method `args`. -/
def Document.args (doc : Document) (h : Heap) : List String :=
  doc.pages.foldl (fun args pg => args ++ (h pg).args) ([] ++ doc.options)

/-- The method `readers`. -/
def Document.readers (doc : Document) (h : Heap) : Nat :=
  doc.pages.foldl (fun n pg => if (h pg).reader then n + 1 else n) 0

/-- The assignment `pg.filename = name` through the pointer. -/
def setFilename (h : Heap) (pg : Ptr) (name : String) : Heap :=
  Function.update h pg { h pg with filename := name }

/-- The loop of `writeTempPages` from index `n` on, over the remaining pages. -/
def writeTempLoop (env : Env) (tmp : String) :
    List Ptr → Nat → Heap → List Event → Option String × Heap × List Event
  | [], _, h, tr => (none, h, tr)
  | pg :: rest, n, h, tr =>
    if (h pg).reader then
      let name := tempPageName env.TempDir tmp n
      let h1 := setFilename h pg name
      let err := env.writeFile tr name (h1 pg).buf
      let tr1 := tr ++ [Event.writeFile name (h1 pg).buf err]
      match err with
      | some e => (some ("Error writing temp file: " ++ e), h1, tr1)
      | none => writeTempLoop env tmp rest (n + 1) h1 tr1
    else writeTempLoop env tmp rest (n + 1) h tr

/-- The method `writeTempPages`. -/
def Document.writeTempPages (env : Env) (s : State) : Option String × State :=
  let res := env.mkTemp s.trace env.TempDir "temp"
  let tr := s.trace ++ [Event.mkTemp env.TempDir "temp" res]
  match res with
  | .error _ =>
    (some "Error creating temp directory",
      { doc := { s.doc with tmp := "" }, heap := s.heap, trace := tr })
  | .ok dir =>
    let r := writeTempLoop env dir s.doc.pages 0 s.heap tr
    (r.1, { doc := { s.doc with tmp := dir }, heap := r.2.1, trace := r.2.2 })

/-- The method `CreatePDFNormal`. -/
def Document.CreatePDFNormal (env : Env) (doc : Document) (h : Heap) (tr : List Event)
    (buffer : Bytes) : Except String Bytes × List Event :=
  let args := doc.args h ++ ["-"]
  let res := env.run tr env.Executable_Wkhtmltopdf args buffer
  let tr1 := tr ++ [Event.run env.Executable_Wkhtmltopdf args buffer res]
  if res.ok then (.ok res.stdout, tr1)
  else (.error ("First: Error running wkhtmltopdf: " ++ res.stderr), tr1)

/-- The method `CreatePDFXvfb`. -/
def Document.CreatePDFXvfb (env : Env) (doc : Document) (h : Heap) (tr : List Event)
    (buffer : Bytes) : Except String Bytes × List Event :=
  let args := doc.args h ++ ["-"]
  let args := [env.Executable_Wkhtmltopdf] ++ args
  let res := env.run tr env.Executable_Xvfb args buffer
  let tr1 := tr ++ [Event.run env.Executable_Xvfb args buffer res]
  if res.ok then (.ok res.stdout, tr1)
  else (.error ("First: Error running wkhtmltopdf: " ++ res.stderr), tr1)

/-- The `switch` of `createPDF`: chooses the standard input.  The result is an
error to return at once, or the page whose buffer became `stdin` (`none` is the
nil `io.Reader`), with the state after the branch. -/
def selectStdin (env : Env) (s : State) : Except String (Option Ptr) × State :=
  if s.doc.readers s.heap = 1 then
    match s.doc.pages.find? (fun pg => (s.heap pg).reader) with
    | some pg => (.ok (some pg), { s with heap := setFilename s.heap pg "-" })
    | none => (.ok none, s)
  else if s.doc.readers s.heap > 1 then
    match Document.writeTempPages env s with
    | (some e, s1) => (.error ("Error writing temp files: " ++ e), s1)
    | (none, s1) => (.ok none, s1)
  else (.ok none, s)

/-- The tail of `createPDF` once the renderer produced `buf`: the removal of the
temp directory and the final `return buf, err`. -/
def cleanup (env : Env) (s : State) (buf : Bytes) :
    Outcome (Option Bytes × Option String) × State :=
  if s.doc.tmp ≠ "" then
    let path := env.TempDir ++ "/" ++ s.doc.tmp
    let err := env.removeAll s.trace path
    (.ret (some buf, err), { s with trace := s.trace ++ [Event.removeAll path err] })
  else (.ret (some buf, none), s)

/-- The execution step of `createPDF`: direct mode, then the display wrapper. -/
def execute (env : Env) (s : State) (buffer : Bytes) :
    Outcome (Option Bytes × Option String) × State :=
  match s.doc.CreatePDFNormal env s.heap s.trace buffer with
  | (.ok buf, tr1) => cleanup env { s with trace := tr1 } buf
  | (.error _, tr1) =>
    match s.doc.CreatePDFXvfb env s.heap tr1 buffer with
    | (.ok buf, tr2) => cleanup env { s with trace := tr2 } buf
    | (.error e, tr2) => (.ret (none, some e), { s with trace := tr2 })

/-- Reading a page's `bytes.Buffer` to its end leaves it empty. -/
def drainBuf (h : Heap) (pg : Ptr) : Heap :=
  Function.update h pg { h pg with buf := [] }

/-- The statement `buffer.ReadFrom(stdin)` on a fresh buffer: a nil reader
faults; otherwise the page's buffer is drained into `buffer`. -/
def readFrom (stdin : Option Ptr) (s : State) : Outcome Bytes × State :=
  match stdin with
  | none => (.panic "runtime error: invalid memory address or nil pointer dereference", s)
  | some pg =>
    (.ret (s.heap pg).buf, { s with heap := drainBuf s.heap pg })

/-- The method `createPDF`.  The pair returned is Go's `(*bytes.Buffer, error)`,
each component `none` for nil. -/
def Document.createPDF (env : Env) (s : State) :
    Outcome (Option Bytes × Option String) × State :=
  match selectStdin env s with
  | (.error e, s1) => (.ret (none, some e), s1)
  | (.ok stdin, s1) =>
    match readFrom stdin s1 with
    | (.panic m, s2) => (.panic m, s2)
    | (.ret buffer, s2) => execute env s2 buffer

/-- The method `WriteToFile`. -/
def Document.WriteToFile (env : Env) (filename : String) (s : State) :
    Outcome (Option String) × State :=
  match Document.createPDF env s with
  | (.panic m, s1) => (.panic m, s1)
  | (.ret (_, some err), s1) => (.ret (some err), s1)
  | (.ret (none, none), s1) =>
    (.panic "runtime error: invalid memory address or nil pointer dereference", s1)
  | (.ret (some buf, none), s1) =>
    let err := env.writeFile s1.trace filename buf
    let s2 := { s1 with trace := s1.trace ++ [Event.writeFile filename buf err] }
    match err with
    | some e => (.ret (some ("Error creating file: " ++ e)), s2)
    | none => (.ret none, s2)

/-- The library method `bytes.Buffer.WriteTo`: an empty buffer writes nothing;
otherwise `w.Write` is called once on the whole content. -/
def bufferWriteTo (buf : Bytes) (w : Writer) (tr : List Event) :
    Outcome (Option String) × List Event :=
  if buf.length > 0 then
    let r := w buf
    let tr1 := tr ++ [Event.write buf r.1 r.2]
    if r.1 > buf.length then (.panic "bytes.Buffer.WriteTo: invalid Write count", tr1)
    else match r.2 with
      | some e => (.ret (some e), tr1)
      | none => if r.1 ≠ buf.length then (.ret (some "short write"), tr1) else (.ret none, tr1)
  else (.ret none, tr)

/-- The method `Write`. -/
def Document.Write (env : Env) (w : Writer) (s : State) :
    Outcome (Option String) × State :=
  match Document.createPDF env s with
  | (.panic m, s1) => (.panic m, s1)
  | (.ret (_, some err), s1) => (.ret (some err), s1)
  | (.ret (none, none), s1) =>
    (.panic "runtime error: invalid memory address or nil pointer dereference", s1)
  | (.ret (some buf, none), s1) =>
    match bufferWriteTo buf w s1.trace with
    | (.panic m, tr) => (.panic m, { s1 with trace := tr })
    | (.ret (some e), tr) => (.ret (some ("Error writing to writer: " ++ e)), { s1 with trace := tr })
    | (.ret none, tr) => (.ret none, { s1 with trace := tr })

/-! ## Vocabulary of the statements -/

/-- One call of the building interface of a `Document`. -/
inductive Call where
  | addPages (pages : List Ptr)
  | addCover (cover : Ptr)
deriving DecidableEq

/-- The pages a call passes, in the order passed. -/
def Call.pages : Call → List Ptr
  | .addPages ps => ps
  | .addCover c => [c]

/-- Runs one call on a document and the heap of its pages. -/
def Call.apply (s : Document × Heap) : Call → Document × Heap
  | .addPages ps => (s.1.AddPages ps, s.2)
  | .addCover c => s.1.AddCover s.2 c

/-- Runs a sequence of calls, first to last. -/
def applyCalls (cs : List Call) (s : Document × Heap) : Document × Heap :=
  cs.foldl Call.apply s

/-- The external commands a trace launched, in order: the executable, the
argument vector and the bytes fed to standard input. -/
def runsOf (tr : List Event) : List (String × List String × Bytes) :=
  tr.filterMap fun e =>
    match e with
    | .run name argv stdin _ => some (name, argv, stdin)
    | _ => none

/-- Whether the event is a temp directory creation. -/
def Event.isMkTemp : Event → Bool
  | .mkTemp _ _ _ => true
  | _ => false

/-- The files a trace wrote without error, in order: name and content. -/
def filesWritten (tr : List Event) : List (String × Bytes) :=
  tr.filterMap fun e =>
    match e with
    | .writeFile name data none => some (name, data)
    | _ => none

/-- The directories a trace asked to remove, in order. -/
def removalsOf (tr : List Event) : List String :=
  tr.filterMap fun e =>
    match e with
    | .removeAll path _ => some path
    | _ => none

/-- The temp directories a trace created, in order. -/
def tempDirsOf (tr : List Event) : List String :=
  tr.filterMap fun e =>
    match e with
    | .mkTemp _ _ (.ok dir) => some dir
    | _ => none

/-- The reader pages of a page list with their indices, counted from `n`. -/
def readerIdx (h : Heap) (pages : List Ptr) (n : Nat) : List (Nat × Ptr) :=
  (pages.enumFrom n).filter fun ip => (h ip.2).reader

/-! ## Concrete documents and environments -/

/-- Modelled from the spec: the constructor `NewPage` (page.go is not among the
sources): a page from a filesystem path or URL stores it verbatim and is not
a reader page. -/
def NewPage (name : String) : Page :=
  { cover := false, filename := name, options := [], reader := false, buf := [] }

/-- Modelled from the spec: the constructor `NewPageReader` (page.go is not
among the sources): a page from in-memory content buffers it and is a reader
page. -/
def NewPageReader (content : Bytes) : Page :=
  { cover := false, filename := "", options := [], reader := true, buf := content }

/-- The bytes of the text `%PDF-`. -/
def pdfMagic : Bytes := [37, 80, 68, 70, 45]

/-- A small HTML body, as bytes. -/
def htmlBytes : Bytes := [60, 112, 62, 104, 105, 60, 47, 112, 62]

/-- An operating system where everything succeeds: the renderer prints a PDF,
temp directories are created under the root given, files get written. -/
def envOK : Env where
  TempDir := "."
  Executable_Wkhtmltopdf := "wkhtmltopdf"
  Executable_Xvfb := "xvfb-run"
  mkTemp := fun _ dir pat => .ok (dir ++ "/" ++ pat ++ "123456789")
  writeFile := fun _ _ _ => none
  removeAll := fun _ _ => none
  run := fun _ _ _ _ => { ok := true, stdout := pdfMagic, stderr := "" }

/-- As `envOK`, but the renderer fails in both modes, reporting on its standard
error that it could not load a page. -/
def envRenderFails : Env :=
  { envOK with
    run := fun _ _ _ _ =>
      { ok := false, stdout := [], stderr := "Error: Failed loading page" } }

/-- As `envOK`, but the renderer only works under the display wrapper. -/
def envNeedsDisplay : Env :=
  { envOK with
    run := fun _ name _ _ =>
      if name = "xvfb-run" then { ok := true, stdout := pdfMagic, stderr := "" }
      else { ok := false, stdout := [], stderr := "cannot connect to X server" } }

/-- As `envOK`, but no file can be written. -/
def envNoWrite : Env :=
  { envOK with writeFile := fun _ _ _ => some "no such file or directory" }

/-- As `envOK`, with the temp root `/tmp`: `ioutil.TempDir` answers with the
path of the directory it made, which lies under that root. -/
def envTmpRoot : Env :=
  { envOK with TempDir := "/tmp" }

/-- A writer that accepts everything. -/
def goodWriter : Writer := fun p => (p.length, none)

/-- The writer `BadWriter` of the tests. -/
def BadWriter : Writer := fun _ => (0, some "Bad writer doesn't write")

/-- The document of the test case Simple: one page from a file. -/
def simpleState : State where
  doc := (NewDocument []).AddPages [0]
  heap := fun _ => NewPage "test_data/simple.html"
  trace := []

/-- The document of `TestWriteFromReader`: one page from memory. -/
def oneReaderState : State where
  doc := (NewDocument []).AddPages [0]
  heap := fun _ => NewPageReader htmlBytes
  trace := []

/-- A document of a file page followed by two pages from memory. -/
def twoReaderState : State where
  doc := (NewDocument []).AddPages [0, 1, 2]
  heap := fun p => if p = 0 then NewPage "test_data/simple.html" else NewPageReader htmlBytes
  trace := []

/-! ## Lemmas on the pure methods -/

theorem foldl_args_eq (h : Heap) (pages : List Ptr) (acc : List String) :
    pages.foldl (fun args pg => args ++ (h pg).args) acc =
      acc ++ (pages.map fun p => (h p).args).flatten := by
  induction pages generalizing acc with
  | nil => simp
  | cons p ps ih => simp [ih, List.append_assoc]

theorem args_eq (doc : Document) (h : Heap) :
    doc.args h = doc.options ++ (doc.pages.map fun p => (h p).args).flatten := by
  simp [Document.args, foldl_args_eq]

theorem foldl_readers_eq (h : Heap) (pages : List Ptr) (acc : Nat) :
    pages.foldl (fun n pg => if (h pg).reader then n + 1 else n) acc =
      acc + (pages.filter fun p => (h p).reader).length := by
  induction pages generalizing acc with
  | nil => simp
  | cons p ps ih =>
    by_cases hp : (h p).reader = true
    · simp [ih, hp]; omega
    · simp [ih, hp]

theorem readers_eq (doc : Document) (h : Heap) :
    doc.readers h = (doc.pages.filter fun p => (h p).reader).length := by
  simp [Document.readers, foldl_readers_eq]

theorem addOptions_eq (doc : Document) (opts : List Opt) :
    doc.AddOptions opts =
      { doc with options := doc.options ++ (opts.map Opt.opts).flatten } := by
  unfold Document.AddOptions
  induction opts generalizing doc with
  | nil => simp
  | cons o os ih => simp [ih, List.append_assoc]

theorem applyCalls_spec (cs : List Call) (d : Document) (h : Heap) :
    (applyCalls cs (d, h)).1 =
        { d with pages := d.pages ++ (cs.map Call.pages).flatten } ∧
    ∀ p, (applyCalls cs (d, h)).2 p =
        if Call.addCover p ∈ cs then { h p with cover := true } else h p := by
  unfold applyCalls
  induction cs generalizing d h with
  | nil => simp
  | cons c cs ih =>
    cases c with
    | addPages ps =>
      simp only [List.foldl_cons, Call.apply, Document.AddPages]
      refine ⟨by simp [(ih _ _).1, Call.pages, List.append_assoc], fun p => ?_⟩
      rw [(ih _ _).2 p]
      simp
    | addCover c =>
      simp only [List.foldl_cons, Call.apply, Document.AddCover]
      refine ⟨by simp [(ih _ _).1, Call.pages, List.append_assoc], fun p => ?_⟩
      rw [(ih _ _).2 p]
      by_cases hpc : p = c
      · subst hpc
        simp [setCover]
      · have hne : ¬ (c = p) := fun e => hpc e.symm
        simp [setCover, Function.update_noteq hpc, hpc, hne]

/-! ## Building a Document, and the renderer's command line -/

/-- C3: after any sequence of `AddPages` and `AddCover` calls on a new
Document, `doc.pages` is the concatenation of the pages passed, in call order;
the pages themselves are untouched except that a page passed to `AddCover` has
its cover flag set; the document options are the tokens of the options given;
and `args()` is the document options followed by each page's own `args()`, in
that same page order. -/
theorem C3_pages_and_args_in_call_order (opts : List Opt) (h : Heap) (cs : List Call) :
    (applyCalls cs (NewDocument opts, h)).1.pages = (cs.map Call.pages).flatten ∧
    (∀ p, (applyCalls cs (NewDocument opts, h)).2 p =
        if Call.addCover p ∈ cs then { h p with cover := true } else h p) ∧
    (applyCalls cs (NewDocument opts, h)).1.options = (opts.map Opt.opts).flatten ∧
    (applyCalls cs (NewDocument opts, h)).1.args (applyCalls cs (NewDocument opts, h)).2 =
      (applyCalls cs (NewDocument opts, h)).1.options ++
        (((cs.map Call.pages).flatten).map fun p =>
          ((applyCalls cs (NewDocument opts, h)).2 p).args).flatten := by
  have hs := applyCalls_spec cs (NewDocument opts) h
  have hn : NewDocument opts =
      { pages := [], options := (opts.map Opt.opts).flatten, tmp := "" } := by
    simp [NewDocument, addOptions_eq, emptyDocument]
  refine ⟨?_, hs.2, ?_, ?_⟩
  · rw [hs.1, hn]; simp
  · rw [hs.1, hn]
  · rw [args_eq]
    congr 1
    rw [hs.1, hn]; simp

/-- No reader page: the `switch` of `createPDF` leaves `stdin` a nil reader and
`buffer.ReadFrom(stdin)` faults, before anything is launched. -/
theorem createPDF_no_reader_panics (env : Env) (s : State) (h0 : s.doc.readers s.heap = 0) :
    Document.createPDF env s =
      (.panic "runtime error: invalid memory address or nil pointer dereference", s) := by
  simp [Document.createPDF, selectStdin, readFrom, h0]

/-- C1, at the document of the test case Simple (one page from a file, no
reader page): `readers()` is 0 and no temp directory is made, but `createPDF`
faults at `buffer.ReadFrom(stdin)` on the nil reader; no renderer is launched,
and `Write` and `WriteToFile` fault with it instead of returning nil. -/
theorem C1_file_page_document_faults :
    simpleState.doc.readers simpleState.heap = 0 ∧
    (Document.createPDF envOK simpleState).1 =
      .panic "runtime error: invalid memory address or nil pointer dereference" ∧
    (Document.createPDF envOK simpleState).2.trace = [] ∧
    (Document.Write envOK goodWriter simpleState).1 =
      .panic "runtime error: invalid memory address or nil pointer dereference" ∧
    (Document.WriteToFile envOK "test_data/simple.pdf" simpleState).1 =
      .panic "runtime error: invalid memory address or nil pointer dereference" := by
  have h0 : simpleState.doc.readers simpleState.heap = 0 := by decide
  have hc := createPDF_no_reader_panics envOK simpleState h0
  refine ⟨h0, ?_, ?_, ?_, ?_⟩
  · rw [hc]
  · rw [hc]; rfl
  · simp [Document.Write, hc]
  · simp [Document.WriteToFile, hc]

/-- C6, as stated, fails: for the document of the test case Simple, which has
no reader page, direct mode hands the renderer `args()` followed by a
trailing `-`, not `args()` itself. -/
theorem C6_counterexample :
    simpleState.doc.readers simpleState.heap = 0 ∧
    runsOf (Document.CreatePDFNormal envOK simpleState.doc simpleState.heap [] []).2 =
      [("wkhtmltopdf", ["test_data/simple.html", "-"], [])] ∧
    runsOf (Document.CreatePDFNormal envOK simpleState.doc simpleState.heap [] []).2 ≠
      [("wkhtmltopdf", simpleState.doc.args simpleState.heap, [])] := by
  decide

theorem CreatePDFNormal_trace (env : Env) (doc : Document) (h : Heap) (tr : List Event)
    (buffer : Bytes) :
    (doc.CreatePDFNormal env h tr buffer).2 =
      tr ++ [Event.run env.Executable_Wkhtmltopdf (doc.args h ++ ["-"]) buffer
        (env.run tr env.Executable_Wkhtmltopdf (doc.args h ++ ["-"]) buffer)] := by
  simp only [Document.CreatePDFNormal]
  split_ifs <;> rfl

theorem CreatePDFXvfb_trace (env : Env) (doc : Document) (h : Heap) (tr : List Event)
    (buffer : Bytes) :
    (doc.CreatePDFXvfb env h tr buffer).2 =
      tr ++ [Event.run env.Executable_Xvfb
        (env.Executable_Wkhtmltopdf :: (doc.args h ++ ["-"])) buffer
        (env.run tr env.Executable_Xvfb
          (env.Executable_Wkhtmltopdf :: (doc.args h ++ ["-"])) buffer)] := by
  simp only [Document.CreatePDFXvfb]
  split_ifs <;> rfl

theorem runsOf_append (a b : List Event) : runsOf (a ++ b) = runsOf a ++ runsOf b := by
  simp [runsOf]

theorem runs_of_modes (env : Env) (doc : Document) (h : Heap) (tr : List Event) (buffer : Bytes) :
    runsOf (doc.CreatePDFNormal env h tr buffer).2 =
      runsOf tr ++ [(env.Executable_Wkhtmltopdf, doc.args h ++ ["-"], buffer)] ∧
    runsOf (doc.CreatePDFXvfb env h tr buffer).2 =
      runsOf tr ++
        [(env.Executable_Xvfb, env.Executable_Wkhtmltopdf :: (doc.args h ++ ["-"]), buffer)] := by
  rw [CreatePDFNormal_trace, CreatePDFXvfb_trace]
  simp [runsOf_append, runsOf]

/-- C6, amended: in both modes the argument vector handed to the renderer is
`args()` followed by a trailing `-`, for every Document, whatever its number
of reader pages; under the display wrapper the renderer's executable name
comes first, since the wrapper launches it. -/
theorem C6_trailing_dash_always (env : Env) (doc : Document) (h : Heap) (tr : List Event)
    (buffer : Bytes) :
    runsOf (doc.CreatePDFNormal env h tr buffer).2 =
      runsOf tr ++ [(env.Executable_Wkhtmltopdf, doc.args h ++ ["-"], buffer)] ∧
    runsOf (doc.CreatePDFXvfb env h tr buffer).2 =
      runsOf tr ++
        [(env.Executable_Xvfb, env.Executable_Wkhtmltopdf :: (doc.args h ++ ["-"]), buffer)] := by
  exact runs_of_modes env doc h tr buffer

/-- C7, at a document of one page from memory whose rendering fails in both
modes: `Write` and `WriteToFile` return an error that carries the renderer's
standard error text, but the message begins with `First: `, not with
`Error running wkhtmltopdf` as the tests require. -/
theorem C7_render_error_message :
    (Document.Write envRenderFails goodWriter oneReaderState).1 =
      .ret (some "First: Error running wkhtmltopdf: Error: Failed loading page") ∧
    (Document.WriteToFile envRenderFails "out.pdf" oneReaderState).1 =
      .ret (some "First: Error running wkhtmltopdf: Error: Failed loading page") ∧
    beginsWith "First: Error running wkhtmltopdf: Error: Failed loading page"
      "Error running wkhtmltopdf" = false := by
  decide

/-! ## The single-reader path and the execution step -/

theorem find_of_filter_eq_cons (p : Ptr → Bool) (l : List Ptr) (a : Ptr) (t : List Ptr)
    (hf : l.filter p = a :: t) : l.find? p = some a := by
  induction l with
  | nil => simp at hf
  | cons x xs ih =>
    by_cases hx : p x = true
    · simp [List.filter_cons, hx] at hf
      rw [← hf.1]
      simp [List.find?_cons, hx]
    · simp [List.filter_cons, hx] at hf
      simp [List.find?_cons, hx, ih hf]

theorem one_reader_find (h : Heap) (pages : List Ptr)
    (h1 : (pages.filter fun p => (h p).reader).length = 1) :
    ∃ pg, pages.find? (fun p => (h p).reader) = some pg ∧ pg ∈ pages ∧
      (h pg).reader = true ∧ ∀ q ∈ pages, (h q).reader = true → q = pg := by
  obtain ⟨pg, hpg⟩ := List.length_eq_one.mp h1
  have hmem : pg ∈ pages.filter fun p => (h p).reader := by rw [hpg]; simp
  refine ⟨pg, ?_, (List.mem_filter.mp hmem).1, (List.mem_filter.mp hmem).2, ?_⟩
  · exact find_of_filter_eq_cons _ pages pg [] hpg
  · intro q hq hr
    have : q ∈ pages.filter fun p => (h p).reader := List.mem_filter.mpr ⟨hq, hr⟩
    rw [hpg] at this
    simpa using this

theorem selectStdin_one_reader (env : Env) (s : State) (h1 : s.doc.readers s.heap = 1) :
    ∃ pg, pg ∈ s.doc.pages ∧ (s.heap pg).reader = true ∧
      (∀ q ∈ s.doc.pages, (s.heap q).reader = true → q = pg) ∧
      selectStdin env s = (.ok (some pg), { s with heap := setFilename s.heap pg "-" }) := by
  obtain ⟨pg, hf, hm, hr, hu⟩ := one_reader_find s.heap s.doc.pages (by rw [← readers_eq]; exact h1)
  exact ⟨pg, hm, hr, hu, by simp [selectStdin, h1, hf]⟩

theorem execute_cases (env : Env) (s : State) (buffer : Bytes) :
    execute env s buffer =
      if (env.run s.trace env.Executable_Wkhtmltopdf (s.doc.args s.heap ++ ["-"]) buffer).ok then
        cleanup env { s with trace := (s.doc.CreatePDFNormal env s.heap s.trace buffer).2 }
          (env.run s.trace env.Executable_Wkhtmltopdf (s.doc.args s.heap ++ ["-"]) buffer).stdout
      else if (env.run (s.doc.CreatePDFNormal env s.heap s.trace buffer).2 env.Executable_Xvfb
          (env.Executable_Wkhtmltopdf :: (s.doc.args s.heap ++ ["-"])) buffer).ok then
        cleanup env { s with trace := (s.doc.CreatePDFXvfb env s.heap
            (s.doc.CreatePDFNormal env s.heap s.trace buffer).2 buffer).2 }
          (env.run (s.doc.CreatePDFNormal env s.heap s.trace buffer).2 env.Executable_Xvfb
            (env.Executable_Wkhtmltopdf :: (s.doc.args s.heap ++ ["-"])) buffer).stdout
      else
        (.ret (none, some ("First: Error running wkhtmltopdf: " ++
            (env.run (s.doc.CreatePDFNormal env s.heap s.trace buffer).2 env.Executable_Xvfb
              (env.Executable_Wkhtmltopdf :: (s.doc.args s.heap ++ ["-"])) buffer).stderr)),
          { s with trace := (s.doc.CreatePDFXvfb env s.heap
            (s.doc.CreatePDFNormal env s.heap s.trace buffer).2 buffer).2 }) := by
  simp only [execute, Document.CreatePDFNormal, Document.CreatePDFXvfb]
  split_ifs <;> simp_all

theorem cleanup_spec (env : Env) (s : State) (buf : Bytes) :
    cleanup env s buf =
      (.ret (some buf,
          if s.doc.tmp = "" then none else env.removeAll s.trace (env.TempDir ++ "/" ++ s.doc.tmp)),
        { s with trace := s.trace ++
            if s.doc.tmp = "" then []
            else [Event.removeAll (env.TempDir ++ "/" ++ s.doc.tmp)
              (env.removeAll s.trace (env.TempDir ++ "/" ++ s.doc.tmp))] }) := by
  unfold cleanup
  split_ifs <;> simp_all

theorem execute_spec (env : Env) (s : State) (buffer : Bytes) :
    (execute env s buffer).2.heap = s.heap ∧ (execute env s buffer).2.doc = s.doc ∧
    ∃ new, (execute env s buffer).2.trace = s.trace ++ new ∧
      (∀ e ∈ new, e.isMkTemp = false) ∧
      (runsOf new).head? =
        some (env.Executable_Wkhtmltopdf, s.doc.args s.heap ++ ["-"], buffer) ∧
      ∀ r ∈ runsOf new, r.2.2 = buffer := by
  rw [execute_cases]
  simp only [cleanup_spec, CreatePDFXvfb_trace, CreatePDFNormal_trace]
  split_ifs <;>
    refine ⟨rfl, rfl, ?_⟩ <;>
    simp only [List.append_assoc] <;>
    refine ⟨_, rfl, ?_⟩ <;>
    simp [runsOf, Event.isMkTemp]

/-- C2: when exactly one page of the Document is a reader page, `createPDF`
sets that page's filename to `-` and changes no other page, leaves the
Document (and so `doc.tmp`) as it was, creates no temp directory, and the
renderer invocation (the first command launched, in direct mode, and every
command launched after it) gets exactly that page's buffered bytes as its
standard input. -/
theorem C2_single_reader_piped (env : Env) (s : State) (h1 : s.doc.readers s.heap = 1) :
    ∃ pg, pg ∈ s.doc.pages ∧ (s.heap pg).reader = true ∧
      (∀ q ∈ s.doc.pages, (s.heap q).reader = true → q = pg) ∧
      ((Document.createPDF env s).2.heap pg).filename = "-" ∧
      (∀ q, q ≠ pg → (Document.createPDF env s).2.heap q = s.heap q) ∧
      (Document.createPDF env s).2.doc = s.doc ∧
      ∃ new, (Document.createPDF env s).2.trace = s.trace ++ new ∧
        (∀ e ∈ new, e.isMkTemp = false) ∧
        (runsOf new).head? =
          some (env.Executable_Wkhtmltopdf,
            s.doc.args (Document.createPDF env s).2.heap ++ ["-"], (s.heap pg).buf) ∧
        ∀ r ∈ runsOf new, r.2.2 = (s.heap pg).buf := by
  obtain ⟨pg, hm, hr, hu, hsel⟩ := selectStdin_one_reader env s h1
  have hc : Document.createPDF env s =
      execute env { s with heap := drainBuf (setFilename s.heap pg "-") pg }
        (s.heap pg).buf := by
    simp [Document.createPDF, hsel, readFrom, setFilename]
  obtain ⟨hh, hd, new, ht, hmk, hhead, hall⟩ := execute_spec env
    { s with heap := drainBuf (setFilename s.heap pg "-") pg } (s.heap pg).buf
  refine ⟨pg, hm, hr, hu, ?_, ?_, ?_, new, ?_, hmk, ?_, hall⟩
  · rw [hc, hh]; simp [setFilename, drainBuf]
  · intro q hq
    rw [hc, hh]; simp [setFilename, drainBuf, Function.update_noteq hq]
  · rw [hc, hd]
  · rw [hc, ht]
  · rw [hc, hh]; exact hhead

/-- Witness of C2: the document of `TestWriteFromReader`, whose only page is a
reader page. -/
theorem C2_single_reader_piped_witness :
    oneReaderState.doc.readers oneReaderState.heap = 1 ∧
    ∃ pg, pg ∈ oneReaderState.doc.pages ∧ (oneReaderState.heap pg).reader = true ∧
      (∀ q ∈ oneReaderState.doc.pages, (oneReaderState.heap q).reader = true → q = pg) ∧
      ((Document.createPDF envOK oneReaderState).2.heap pg).filename = "-" ∧
      (∀ q, q ≠ pg → (Document.createPDF envOK oneReaderState).2.heap q = oneReaderState.heap q) ∧
      (Document.createPDF envOK oneReaderState).2.doc = oneReaderState.doc ∧
      ∃ new, (Document.createPDF envOK oneReaderState).2.trace = oneReaderState.trace ++ new ∧
        (∀ e ∈ new, e.isMkTemp = false) ∧
        (runsOf new).head? =
          some (envOK.Executable_Wkhtmltopdf,
            oneReaderState.doc.args (Document.createPDF envOK oneReaderState).2.heap ++ ["-"],
            (oneReaderState.heap pg).buf) ∧
        ∀ r ∈ runsOf new, r.2.2 = (oneReaderState.heap pg).buf :=
  ⟨by decide, C2_single_reader_piped envOK oneReaderState (by decide)⟩

theorem CreatePDFNormal_fst (env : Env) (doc : Document) (h : Heap) (tr : List Event)
    (buffer : Bytes) :
    (doc.CreatePDFNormal env h tr buffer).1 =
      if (env.run tr env.Executable_Wkhtmltopdf (doc.args h ++ ["-"]) buffer).ok then
        .ok (env.run tr env.Executable_Wkhtmltopdf (doc.args h ++ ["-"]) buffer).stdout
      else .error ("First: Error running wkhtmltopdf: " ++
        (env.run tr env.Executable_Wkhtmltopdf (doc.args h ++ ["-"]) buffer).stderr) := by
  simp only [Document.CreatePDFNormal]
  split_ifs <;> rfl

theorem CreatePDFXvfb_fst (env : Env) (doc : Document) (h : Heap) (tr : List Event)
    (buffer : Bytes) :
    (doc.CreatePDFXvfb env h tr buffer).1 =
      if (env.run tr env.Executable_Xvfb
          (env.Executable_Wkhtmltopdf :: (doc.args h ++ ["-"])) buffer).ok then
        .ok (env.run tr env.Executable_Xvfb
          (env.Executable_Wkhtmltopdf :: (doc.args h ++ ["-"])) buffer).stdout
      else .error ("First: Error running wkhtmltopdf: " ++
        (env.run tr env.Executable_Xvfb
          (env.Executable_Wkhtmltopdf :: (doc.args h ++ ["-"])) buffer).stderr) := by
  simp only [Document.CreatePDFXvfb, List.singleton_append]
  split_ifs <;> rfl

theorem selectStdin_some (env : Env) (s s1 : State) (pg : Ptr)
    (hsel : selectStdin env s = (.ok (some pg), s1)) :
    s.doc.readers s.heap = 1 ∧ s1 = { s with heap := setFilename s.heap pg "-" } := by
  unfold selectStdin at hsel
  split_ifs at hsel with h1 h2
  · refine ⟨h1, ?_⟩
    cases hf : s.doc.pages.find? (fun pg => (s.heap pg).reader) with
    | none => simp [hf] at hsel
    | some q =>
      simp only [hf, Prod.mk.injEq, Except.ok.injEq, Option.some.injEq] at hsel
      rw [← hsel.1, ← hsel.2]
  · rcases hw : Document.writeTempPages env s with ⟨err, s2⟩
    cases err <;> simp [hw] at hsel
  · simp at hsel

theorem cleanup_fst (env : Env) (s : State) (buf : Bytes) :
    ∃ e, (cleanup env s buf).1 = .ret (some buf, e) ∧ (s.doc.tmp = "" → e = none) := by
  rw [cleanup_spec]
  exact ⟨_, rfl, fun h => by simp [h]⟩

theorem cleanup_runs (env : Env) (s : State) (buf : Bytes) :
    runsOf (cleanup env s buf).2.trace = runsOf s.trace := by
  rw [cleanup_spec]
  by_cases h : s.doc.tmp = "" <;> simp [h, runsOf_append, runsOf]

/-- C4: for a render call that reaches the execution step (a standard input was
selected and read into `buffer`), with direct mode `CreatePDFNormal` and
display-wrapped mode `CreatePDFXvfb` as functions returning output bytes or
an error: if direct mode succeeds, `createPDF` returns direct mode's output and
the only command launched is the direct one; if direct mode fails and wrapped
mode succeeds, it returns the wrapped mode's output, having launched both
with the same argument vector and the same input (in both cases the error
returned with the buffer is nil when the Document's `tmp` is empty, so that
no directory is to be removed); if both fail, it returns no buffer and the wrapped
mode's error, direct mode's error being dropped. -/
theorem C4_fallback_chain (env : Env) (s s1 s2 : State) (stdin : Option Ptr) (buffer : Bytes)
    (hsel : selectStdin env s = (.ok stdin, s1))
    (hread : readFrom stdin s1 = (.ret buffer, s2)) :
    (∀ out, (s2.doc.CreatePDFNormal env s2.heap s2.trace buffer).1 = .ok out →
      (∃ e, (Document.createPDF env s).1 = .ret (some out, e) ∧ (s.doc.tmp = "" → e = none)) ∧
      runsOf (Document.createPDF env s).2.trace =
        runsOf s2.trace ++ [(env.Executable_Wkhtmltopdf, s2.doc.args s2.heap ++ ["-"], buffer)]) ∧
    (∀ e1 out, (s2.doc.CreatePDFNormal env s2.heap s2.trace buffer).1 = .error e1 →
      (s2.doc.CreatePDFXvfb env s2.heap
        (s2.doc.CreatePDFNormal env s2.heap s2.trace buffer).2 buffer).1 = .ok out →
      (∃ e, (Document.createPDF env s).1 = .ret (some out, e) ∧ (s.doc.tmp = "" → e = none)) ∧
      runsOf (Document.createPDF env s).2.trace =
        runsOf s2.trace ++
          [(env.Executable_Wkhtmltopdf, s2.doc.args s2.heap ++ ["-"], buffer),
           (env.Executable_Xvfb,
             env.Executable_Wkhtmltopdf :: (s2.doc.args s2.heap ++ ["-"]), buffer)]) ∧
    (∀ e1 e2, (s2.doc.CreatePDFNormal env s2.heap s2.trace buffer).1 = .error e1 →
      (s2.doc.CreatePDFXvfb env s2.heap
        (s2.doc.CreatePDFNormal env s2.heap s2.trace buffer).2 buffer).1 = .error e2 →
      (Document.createPDF env s).1 = .ret (none, some e2) ∧
      runsOf (Document.createPDF env s).2.trace =
        runsOf s2.trace ++
          [(env.Executable_Wkhtmltopdf, s2.doc.args s2.heap ++ ["-"], buffer),
           (env.Executable_Xvfb,
             env.Executable_Wkhtmltopdf :: (s2.doc.args s2.heap ++ ["-"]), buffer)]) := by
  have hc : Document.createPDF env s = execute env s2 buffer := by
    simp [Document.createPDF, hsel, hread]
  have hdoc : s2.doc = s.doc := by
    cases stdin with
    | none => simp [readFrom] at hread
    | some pg =>
      simp only [readFrom, Prod.mk.injEq, Outcome.ret.injEq] at hread
      rw [← hread.2, (selectStdin_some env s s1 pg hsel).2]
  rw [hc, execute_cases]
  simp only [CreatePDFNormal_fst, CreatePDFXvfb_fst]
  refine ⟨fun out hd => ?_, fun e1 out hd hx => ?_, fun e1 e2 hd hx => ?_⟩
  · split_ifs at hd with hdo
    rw [if_pos hdo]
    injection hd with hd
    subst hd
    refine ⟨?_, ?_⟩
    · obtain ⟨e, he, ht⟩ := cleanup_fst env
        { s2 with trace := (s2.doc.CreatePDFNormal env s2.heap s2.trace buffer).2 }
        (env.run s2.trace env.Executable_Wkhtmltopdf (s2.doc.args s2.heap ++ ["-"]) buffer).stdout
      exact ⟨e, he, fun h0 => ht (by rw [hdoc]; exact h0)⟩
    · rw [cleanup_runs, (runs_of_modes env s2.doc s2.heap s2.trace buffer).1]
  · split_ifs at hd with hdo
    split_ifs at hx with hxo
    rw [if_neg hdo, if_pos hxo]
    injection hx with hx
    subst hx
    refine ⟨?_, ?_⟩
    · obtain ⟨e, he, ht⟩ := cleanup_fst env
        { s2 with trace := (s2.doc.CreatePDFXvfb env s2.heap
            (s2.doc.CreatePDFNormal env s2.heap s2.trace buffer).2 buffer).2 }
        (env.run (s2.doc.CreatePDFNormal env s2.heap s2.trace buffer).2 env.Executable_Xvfb
            (env.Executable_Wkhtmltopdf :: (s2.doc.args s2.heap ++ ["-"])) buffer).stdout
      exact ⟨e, he, fun h0 => ht (by rw [hdoc]; exact h0)⟩
    · rw [cleanup_runs, (runs_of_modes env s2.doc s2.heap _ buffer).2,
        (runs_of_modes env s2.doc s2.heap s2.trace buffer).1]
      simp
  · split_ifs at hd with hdo
    split_ifs at hx with hxo
    rw [if_neg hdo, if_neg hxo]
    injection hx with hx
    subst hx
    refine ⟨rfl, ?_⟩
    show runsOf (s2.doc.CreatePDFXvfb env s2.heap _ buffer).2 = _
    rw [(runs_of_modes env s2.doc s2.heap _ buffer).2,
        (runs_of_modes env s2.doc s2.heap s2.trace buffer).1]
    simp

/-- Witness of C4: the document of `TestWriteFromReader` where the renderer
works at once, where it only works under the display wrapper, and where it
fails in both modes. -/
theorem C4_fallback_chain_witness :
    ((∃ e, (Document.createPDF envOK oneReaderState).1 = .ret (some pdfMagic, e) ∧
        (oneReaderState.doc.tmp = "" → e = none)) ∧
      runsOf (Document.createPDF envOK oneReaderState).2.trace =
        [("wkhtmltopdf", ["-", "-"], htmlBytes)]) ∧
    ((∃ e, (Document.createPDF envNeedsDisplay oneReaderState).1 = .ret (some pdfMagic, e) ∧
        (oneReaderState.doc.tmp = "" → e = none)) ∧
      runsOf (Document.createPDF envNeedsDisplay oneReaderState).2.trace =
        [("wkhtmltopdf", ["-", "-"], htmlBytes),
         ("xvfb-run", ["wkhtmltopdf", "-", "-"], htmlBytes)]) ∧
    ((Document.createPDF envRenderFails oneReaderState).1 =
        .ret (none, some "First: Error running wkhtmltopdf: Error: Failed loading page") ∧
      runsOf (Document.createPDF envRenderFails oneReaderState).2.trace =
        [("wkhtmltopdf", ["-", "-"], htmlBytes),
         ("xvfb-run", ["wkhtmltopdf", "-", "-"], htmlBytes)]) :=
  ⟨(C4_fallback_chain envOK oneReaderState
      (selectStdin envOK oneReaderState).2
      (readFrom (some 0) (selectStdin envOK oneReaderState).2).2
      (some 0) htmlBytes rfl rfl).1 pdfMagic rfl,
   (C4_fallback_chain envNeedsDisplay oneReaderState
      (selectStdin envNeedsDisplay oneReaderState).2
      (readFrom (some 0) (selectStdin envNeedsDisplay oneReaderState).2).2
      (some 0) htmlBytes rfl rfl).2.1
      "First: Error running wkhtmltopdf: cannot connect to X server" pdfMagic rfl rfl,
   (C4_fallback_chain envRenderFails oneReaderState
      (selectStdin envRenderFails oneReaderState).2
      (readFrom (some 0) (selectStdin envRenderFails oneReaderState).2).2
      (some 0) htmlBytes rfl rfl).2.2
      "First: Error running wkhtmltopdf: Error: Failed loading page"
      "First: Error running wkhtmltopdf: Error: Failed loading page" rfl rfl⟩

/-! ## Delivery -/

theorem beginsWith_append_false (a b p : String) (k : Nat) (hka : k ≤ a.data.length)
    (hkp : k ≤ p.data.length) (h : a.data.take k ≠ p.data.take k) :
    beginsWith (a ++ b) p = false := by
  unfold beginsWith
  simp only [String.data_append]
  cases hp : p.data.isPrefixOf (a.data ++ b.data) with
  | false => rfl
  | true =>
    exfalso
    rw [List.isPrefixOf_iff_prefix, List.prefix_iff_eq_take] at hp
    apply h
    have h2 := congrArg (List.take k) hp
    rw [List.take_take, Nat.min_eq_left hkp, List.take_append_of_le_length hka] at h2
    exact h2.symm

/-- C8: when `createPDF` returns a buffer and a nil error, a failing file write
makes `WriteToFile` return `Error creating file: ` followed by the cause, and a
failing `Write` of the destination writer (called on the non-empty output,
returning a count within the data) makes `Write` return
`Error writing to writer: ` followed by the cause; neither message is a
render-error message (`First: Error running wkhtmltopdf: ...`) nor begins with
`Error running wkhtmltopdf`.  When `createPDF` returns an error, both
operations return that very error and the state `createPDF` left, so nothing
is written. -/
theorem C8_delivery_errors (env : Env) (s : State) (filename : String) (w : Writer) :
    (∀ buf s1, Document.createPDF env s = (.ret (some buf, none), s1) →
      (∀ e, env.writeFile s1.trace filename buf = some e →
        (Document.WriteToFile env filename s).1 = .ret (some ("Error creating file: " ++ e))) ∧
      (∀ e, buf ≠ [] → (w buf).2 = some e → (w buf).1 ≤ buf.length →
        (Document.Write env w s).1 = .ret (some ("Error writing to writer: " ++ e)))) ∧
    (∀ e stderr : String,
      "Error creating file: " ++ e ≠ "First: Error running wkhtmltopdf: " ++ stderr ∧
      "Error writing to writer: " ++ e ≠ "First: Error running wkhtmltopdf: " ++ stderr ∧
      beginsWith ("Error creating file: " ++ e) "Error running wkhtmltopdf" = false ∧
      beginsWith ("Error writing to writer: " ++ e) "Error running wkhtmltopdf" = false) ∧
    (∀ b err s1, Document.createPDF env s = (.ret (b, some err), s1) →
      Document.WriteToFile env filename s = (.ret (some err), s1) ∧
      Document.Write env w s = (.ret (some err), s1)) := by
  refine ⟨fun buf s1 hc => ⟨fun e he => ?_, fun e hne he hn => ?_⟩, fun e stderr => ?_,
    fun b err s1 hc => ?_⟩
  · simp [Document.WriteToFile, hc, he]
  · have hpos : buf.length > 0 := List.length_pos.mpr hne
    have hn2 : ¬ (w buf).1 > buf.length := by omega
    simp [Document.Write, hc, bufferWriteTo, hpos, hn2, he]
  · refine ⟨?_, ?_, beginsWith_append_false _ _ _ 7 (by decide) (by decide) (by decide),
      beginsWith_append_false _ _ _ 7 (by decide) (by decide) (by decide)⟩
    · intro h
      have := congrArg (fun t : String => t.data.head?) h
      simp [String.data_append] at this
    · intro h
      have := congrArg (fun t : String => t.data.head?) h
      simp [String.data_append] at this
  · simp [Document.WriteToFile, Document.Write, hc]

/-- Witness of C8: the document of `TestWriteFromReader`, rendered with success
and then sent to a path that cannot be written and to the `BadWriter` of the
tests, and the same document with a renderer that fails. -/
theorem C8_delivery_errors_witness :
    (Document.WriteToFile envNoWrite "<>/!//bad.pdf" oneReaderState).1 =
      .ret (some "Error creating file: no such file or directory") ∧
    (Document.Write envOK BadWriter oneReaderState).1 =
      .ret (some "Error writing to writer: Bad writer doesn't write") ∧
    (Document.WriteToFile envRenderFails "out.pdf" oneReaderState =
        (.ret (some "First: Error running wkhtmltopdf: Error: Failed loading page"),
          (Document.createPDF envRenderFails oneReaderState).2) ∧
      Document.Write envRenderFails goodWriter oneReaderState =
        (.ret (some "First: Error running wkhtmltopdf: Error: Failed loading page"),
          (Document.createPDF envRenderFails oneReaderState).2)) :=
  ⟨((C8_delivery_errors envNoWrite oneReaderState "<>/!//bad.pdf" goodWriter).1
      pdfMagic (Document.createPDF envNoWrite oneReaderState).2 rfl).1
      "no such file or directory" rfl,
   ((C8_delivery_errors envOK oneReaderState "out.pdf" BadWriter).1
      pdfMagic (Document.createPDF envOK oneReaderState).2 rfl).2
      "Bad writer doesn't write" (by decide) rfl (by decide),
   (C8_delivery_errors envRenderFails oneReaderState "out.pdf" goodWriter).2.2
      none "First: Error running wkhtmltopdf: Error: Failed loading page"
      (Document.createPDF envRenderFails oneReaderState).2 rfl⟩

/-! ## The names of the temp files -/

theorem digitChar_val (d : Nat) (hd : d < 10) : (Nat.digitChar d).toNat - 48 = d := by
  interval_cases d <;> rfl

theorem foldl_toDigitsCore (fuel : Nat) :
    ∀ (n : Nat) (ds : List Char), n < fuel →
      (Nat.toDigitsCore 10 fuel n ds).foldl (fun acc c => acc * 10 + (c.toNat - 48)) 0 =
        ds.foldl (fun acc c => acc * 10 + (c.toNat - 48)) n := by
  induction fuel with
  | zero => intro n ds h; omega
  | succ f ih =>
    intro n ds h
    simp only [Nat.toDigitsCore]
    split_ifs with h0
    · have hn : n < 10 := by
        by_contra hc
        have : 1 ≤ n / 10 := (Nat.one_le_div_iff (by decide)).mpr (by omega)
        omega
      simp [Nat.mod_eq_of_lt hn, digitChar_val n hn]
    · have hlt : n / 10 < f := by
        have : n / 10 < n := Nat.div_lt_self (by
          by_contra hc
          have : n = 0 := by omega
          simp [this] at h0) (by decide)
        omega
      rw [ih (n / 10) _ hlt]
      simp only [List.foldl_cons]
      rw [digitChar_val (n % 10) (Nat.mod_lt _ (by decide)), Nat.div_add_mod']

theorem decodeDec_fmtD (n : Nat) : decodeDec (fmtD n) = n := by
  unfold decodeDec fmtD Nat.toDigits
  rw [foldl_toDigitsCore (n + 1) n [] (Nat.lt_succ_self n)]
  rfl

theorem foldl_zeros (k : Nat) :
    (List.replicate k '0').foldl (fun acc c => acc * 10 + (c.toNat - 48)) 0 = 0 := by
  induction k with
  | zero => rfl
  | succ k ih => simpa [List.replicate_succ] using ih

theorem decodeDec_fmtD08 (n : Nat) : decodeDec (fmtD08 n).data = n := by
  have h := decodeDec_fmtD n
  unfold decodeDec at *
  simp only [fmtD08, List.foldl_append, foldl_zeros]
  exact h

theorem fmtD08_length (n : Nat) : 8 ≤ (fmtD08 n).data.length := by
  simp only [fmtD08, List.length_append, List.length_replicate]
  omega

theorem digitChar_isDigit (d : Nat) (hd : d < 10) : (Nat.digitChar d).isDigit = true := by
  interval_cases d <;> rfl

theorem toDigitsCore_isDigit (fuel : Nat) :
    ∀ (n : Nat) (ds : List Char), ds.all Char.isDigit = true →
      (Nat.toDigitsCore 10 fuel n ds).all Char.isDigit = true := by
  induction fuel with
  | zero => intro n ds h; simpa [Nat.toDigitsCore] using h
  | succ f ih =>
    intro n ds h
    have hd := digitChar_isDigit (n % 10) (Nat.mod_lt _ (by decide))
    simp only [Nat.toDigitsCore]
    split_ifs with h0
    · simp only [List.all_cons, hd, h, Bool.and_self]
    · exact ih _ _ (by simp only [List.all_cons, hd, h, Bool.and_self])

theorem fmtD08_digits (n : Nat) : (fmtD08 n).data.all Char.isDigit = true := by
  have h := toDigitsCore_isDigit (n + 1) n [] rfl
  simp only [fmtD08, fmtD, Nat.toDigits, List.all_append, h, Bool.and_true]
  simp

theorem fmtD08_injective : Function.Injective fmtD08 := by
  intro a b h
  rw [← decodeDec_fmtD08 a, ← decodeDec_fmtD08 b, h]

theorem tempPageName_injective (tempDir tmp : String) :
    Function.Injective (tempPageName tempDir tmp) := by
  intro a b h
  apply fmtD08_injective
  unfold tempPageName at h
  have h2 := congrArg String.data h
  simp only [String.data_append] at h2
  apply String.ext
  exact List.append_cancel_left (List.append_cancel_right h2)

/-! ## The loop of `writeTempPages` -/

theorem setFilename_reader (h : Heap) (pg : Ptr) (name : String) (q : Ptr) :
    (setFilename h pg name q).reader = (h q).reader := by
  unfold setFilename
  by_cases hq : q = pg
  · subst hq; simp
  · simp [Function.update_noteq hq]

theorem setFilename_buf (h : Heap) (pg : Ptr) (name : String) (q : Ptr) :
    (setFilename h pg name q).buf = (h q).buf := by
  unfold setFilename
  by_cases hq : q = pg
  · subst hq; simp
  · simp [Function.update_noteq hq]

theorem readerIdx_congr (h1 h : Heap) (pages : List Ptr) (n : Nat)
    (hr : ∀ q, (h1 q).reader = (h q).reader) :
    readerIdx h1 pages n = readerIdx h pages n := by
  unfold readerIdx
  apply List.filter_congr
  intro x _
  exact hr x.2

theorem readerIdx_cons (h : Heap) (pg : Ptr) (rest : List Ptr) (n : Nat) :
    readerIdx h (pg :: rest) n =
      if (h pg).reader then (n, pg) :: readerIdx h rest (n + 1)
      else readerIdx h rest (n + 1) := by
  simp only [readerIdx, List.enumFrom_cons, List.filter_cons]

theorem writeTempLoop_ok (env : Env) (tmp : String) (pages : List Ptr) :
    ∀ (n : Nat) (h : Heap) (tr : List Event) (h2 : Heap) (tr2 : List Event),
      writeTempLoop env tmp pages n h tr = (none, h2, tr2) →
      tr2 = tr ++ (readerIdx h pages n).map (fun ip =>
        Event.writeFile (tempPageName env.TempDir tmp ip.1) (h ip.2).buf none) ∧
      h2 = (readerIdx h pages n).foldl
        (fun hh ip => setFilename hh ip.2 (tempPageName env.TempDir tmp ip.1)) h := by
  induction pages with
  | nil =>
    intro n h tr h2 tr2 hl
    simp only [writeTempLoop, Prod.mk.injEq, true_and] at hl
    simp [readerIdx, hl.1, hl.2]
  | cons pg rest ih =>
    intro n h tr h2 tr2 hl
    rw [readerIdx_cons]
    by_cases hr : (h pg).reader = true
    · simp only [writeTempLoop, hr, if_true] at hl
      cases he : env.writeFile tr (tempPageName env.TempDir tmp n)
          (setFilename h pg (tempPageName env.TempDir tmp n) pg).buf with
      | some e => simp [he] at hl
      | none =>
        simp only [he] at hl
        obtain ⟨ht, hh⟩ := ih _ _ _ _ _ hl
        have hc := readerIdx_congr (setFilename h pg (tempPageName env.TempDir tmp n)) h rest
          (n + 1) (setFilename_reader h pg _)
        rw [hc] at ht hh
        simp only [hr, if_true, List.map_cons, List.foldl_cons]
        refine ⟨?_, hh⟩
        rw [ht]
        simp [setFilename_buf]
    · simp only [writeTempLoop, hr, if_false] at hl
      simp only [hr, if_false]
      exact ih _ _ _ _ _ hl

theorem writeTempPages_ok (env : Env) (s : State)
    (hok : (Document.writeTempPages env s).1 = none) :
    ∃ dir, env.mkTemp s.trace env.TempDir "temp" = .ok dir ∧
      (Document.writeTempPages env s).2 =
        { doc := { s.doc with tmp := dir },
          heap := (readerIdx s.heap s.doc.pages 0).foldl
            (fun hh ip => setFilename hh ip.2 (tempPageName env.TempDir dir ip.1)) s.heap,
          trace := s.trace ++ Event.mkTemp env.TempDir "temp" (.ok dir) ::
            (readerIdx s.heap s.doc.pages 0).map (fun ip =>
              Event.writeFile (tempPageName env.TempDir dir ip.1) (s.heap ip.2).buf none) } := by
  unfold Document.writeTempPages at hok ⊢
  cases hm : env.mkTemp s.trace env.TempDir "temp" with
  | error e => simp [hm] at hok
  | ok dir =>
    simp only [hm] at hok ⊢
    refine ⟨dir, rfl, ?_⟩
    obtain ⟨ht, hh⟩ := writeTempLoop_ok env dir s.doc.pages 0 s.heap
      (s.trace ++ [Event.mkTemp env.TempDir "temp" (.ok dir)]) _ _
      (Prod.ext hok rfl)
    simp only [State.mk.injEq, true_and]
    refine ⟨hh, ?_⟩
    rw [ht]; simp

theorem readerIdx_length (h : Heap) (pages : List Ptr) :
    ∀ n, (readerIdx h pages n).length = (pages.filter fun p => (h p).reader).length := by
  induction pages with
  | nil => intro n; rfl
  | cons pg rest ih =>
    intro n
    rw [readerIdx_cons]
    by_cases hr : (h pg).reader = true <;> simp [hr, ih, List.filter_cons]

theorem mem_readerIdx (h : Heap) (pages : List Ptr) (i : Nat) (p : Ptr) :
    (i, p) ∈ readerIdx h pages 0 ↔ pages[i]? = some p ∧ (h p).reader = true := by
  simp [readerIdx, List.mem_filter, List.mk_mem_enumFrom_iff_le_and_getElem?_sub]

theorem readerIdx_pairwise (h : Heap) (pages : List Ptr) (n : Nat) :
    (readerIdx h pages n).Pairwise (fun a b => a.1 < b.1) := by
  unfold readerIdx
  apply List.Pairwise.filter
  rw [← List.pairwise_map (f := Prod.fst) (R := fun a b => a < b), List.enumFrom_map_fst]
  exact List.pairwise_lt_range' n pages.length

theorem foldl_setFilename_fields (name : Nat → String) (L : List (Nat × Ptr)) :
    ∀ (h : Heap) (p : Ptr),
      L.foldl (fun hh ip => setFilename hh ip.2 (name ip.1)) h p =
        { h p with filename := (L.foldl (fun hh ip => setFilename hh ip.2 (name ip.1)) h p).filename } := by
  induction L with
  | nil => intro h p; rfl
  | cons x L ih =>
    intro h p
    simp only [List.foldl_cons]
    rw [ih]
    by_cases hp : p = x.2
    · subst hp; simp [setFilename]
    · simp [setFilename, Function.update_noteq hp]

theorem foldl_setFilename_notin (name : Nat → String) (L : List (Nat × Ptr)) :
    ∀ (h : Heap) (p : Ptr), (∀ k, (k, p) ∉ L) →
      L.foldl (fun hh ip => setFilename hh ip.2 (name ip.1)) h p = h p := by
  induction L with
  | nil => intro h p _; rfl
  | cons x L ih =>
    intro h p hn
    simp only [List.foldl_cons]
    rw [ih _ p (fun k hk => hn k (List.mem_cons_of_mem _ hk))]
    have hp : p ≠ x.2 := by
      intro e
      exact hn x.1 (by rw [e]; exact List.mem_cons_self _ _)
    simp [setFilename, Function.update_noteq hp]

theorem foldl_setFilename_last (name : Nat → String) (L : List (Nat × Ptr)) :
    ∀ (h : Heap) (p : Ptr), L.Pairwise (fun a b => a.1 < b.1) → (∃ i, (i, p) ∈ L) →
      ∃ j, (j, p) ∈ L ∧
        (L.foldl (fun hh ip => setFilename hh ip.2 (name ip.1)) h p).filename = name j ∧
        ∀ k, (k, p) ∈ L → k ≤ j := by
  induction L with
  | nil => intro h p _ hex; obtain ⟨i, hi⟩ := hex; simp at hi
  | cons x L ih =>
    intro h p hpw hex
    simp only [List.foldl_cons]
    rw [List.pairwise_cons] at hpw
    by_cases hin : ∃ i, (i, p) ∈ L
    · obtain ⟨j, hj, hf, hmax⟩ := ih (setFilename h x.2 (name x.1)) p hpw.2 hin
      refine ⟨j, List.mem_cons_of_mem _ hj, hf, fun k hk => ?_⟩
      rcases List.mem_cons.mp hk with hk | hk
      · have := hpw.1 _ hj
        rw [← hk] at this
        exact Nat.le_of_lt this
      · exact hmax k hk
    · have hnot : ∀ k, (k, p) ∉ L := fun k hk => hin ⟨k, hk⟩
      obtain ⟨i, hi⟩ := hex
      have hx : (i, p) = x := by
        rcases List.mem_cons.mp hi with hi | hi
        · exact hi
        · exact absurd hi (hnot i)
      refine ⟨i, hi, ?_, fun k hk => ?_⟩
      · rw [foldl_setFilename_notin name L _ p hnot, ← hx]
        simp [setFilename]
      · rcases List.mem_cons.mp hk with hk | hk
        · rw [← hx] at hk
          exact Nat.le_of_eq (Prod.mk.inj hk).1
        · exact absurd hk (hnot k)

/-- C9: when the temp directory is created and every file write succeeds,
`writeTempPages` stores the directory's path in `doc.tmp` and writes exactly
one file per reader page, in page order, and none for the other pages: as many
files as `readers()` counts, the file of the reader page at index `i` holding
that page's buffered bytes under the name built from `i` by `%08d` (at least 8
characters, all decimal digits, zero-padded, reading back as `i`).  The indices are strictly
increasing, so the names are pairwise distinct.  Afterwards each reader page's
filename is the name of the file written for it (for the last index at which
the page stands in the Document, should it have been added more than once),
and nothing but filenames of reader pages changed. -/
theorem C9_temp_files (env : Env) (s : State)
    (hok : (Document.writeTempPages env s).1 = none) :
    ∃ dir, env.mkTemp s.trace env.TempDir "temp" = .ok dir ∧
      (Document.writeTempPages env s).2.doc = { s.doc with tmp := dir } ∧
      (Document.writeTempPages env s).2.trace =
        s.trace ++ Event.mkTemp env.TempDir "temp" (.ok dir) ::
          (readerIdx s.heap s.doc.pages 0).map (fun ip =>
            Event.writeFile (tempPageName env.TempDir dir ip.1) (s.heap ip.2).buf none) ∧
      (readerIdx s.heap s.doc.pages 0).length = s.doc.readers s.heap ∧
      (∀ i p, (i, p) ∈ readerIdx s.heap s.doc.pages 0 ↔
        s.doc.pages[i]? = some p ∧ (s.heap p).reader = true) ∧
      (readerIdx s.heap s.doc.pages 0).Pairwise (fun a b => a.1 < b.1) ∧
      ((readerIdx s.heap s.doc.pages 0).map fun ip =>
        tempPageName env.TempDir dir ip.1).Nodup ∧
      (∀ n, 8 ≤ (fmtD08 n).data.length ∧ (fmtD08 n).data.all Char.isDigit = true ∧
        decodeDec (fmtD08 n).data = n) ∧
      (∀ p ∈ s.doc.pages, (s.heap p).reader = true →
        ∃ j, s.doc.pages[j]? = some p ∧
          ((Document.writeTempPages env s).2.heap p).filename =
            tempPageName env.TempDir dir j ∧
          ∀ k, s.doc.pages[k]? = some p → k ≤ j) ∧
      (∀ p, (Document.writeTempPages env s).2.heap p =
        { s.heap p with filename := ((Document.writeTempPages env s).2.heap p).filename }) ∧
      (∀ p, (s.heap p).reader = false → (Document.writeTempPages env s).2.heap p = s.heap p) := by
  obtain ⟨dir, hm, hs⟩ := writeTempPages_ok env s hok
  have hpw := readerIdx_pairwise s.heap s.doc.pages 0
  refine ⟨dir, hm, by rw [hs], by rw [hs], ?_, mem_readerIdx s.heap s.doc.pages, hpw, ?_,
    fun n => ⟨fmtD08_length n, fmtD08_digits n, decodeDec_fmtD08 n⟩, ?_, ?_, ?_⟩
  · rw [readerIdx_length, readers_eq]
  · rw [List.Nodup, List.pairwise_map]
    refine hpw.imp ?_
    intro a b hab heq
    exact absurd (tempPageName_injective _ _ heq) (Nat.ne_of_lt hab)
  · intro p hp hr
    obtain ⟨i, hi⟩ := List.mem_iff_getElem?.mp hp
    obtain ⟨j, hj, hf, hmax⟩ := foldl_setFilename_last (tempPageName env.TempDir dir)
      (readerIdx s.heap s.doc.pages 0) s.heap p hpw
      ⟨i, (mem_readerIdx s.heap s.doc.pages i p).mpr ⟨hi, hr⟩⟩
    refine ⟨j, ((mem_readerIdx s.heap s.doc.pages j p).mp hj).1, by rw [hs]; exact hf,
      fun k hk => hmax k ((mem_readerIdx s.heap s.doc.pages k p).mpr ⟨hk, hr⟩)⟩
  · intro p
    rw [hs]
    exact foldl_setFilename_fields (tempPageName env.TempDir dir) _ s.heap p
  · intro p hr
    rw [hs]
    apply foldl_setFilename_notin (tempPageName env.TempDir dir)
    intro k hk
    have := ((mem_readerIdx s.heap s.doc.pages k p).mp hk).2
    rw [hr] at this
    exact Bool.noConfusion this

/-- Witness of C9: a file page followed by two reader pages, on a system where
everything succeeds. -/
theorem C9_temp_files_witness :
    (Document.writeTempPages envOK twoReaderState).1 = none ∧
    filesWritten (Document.writeTempPages envOK twoReaderState).2.trace =
      [("././temp123456789/page00000001.html", htmlBytes),
       ("././temp123456789/page00000002.html", htmlBytes)] ∧
    ∃ dir, envOK.mkTemp twoReaderState.trace envOK.TempDir "temp" = .ok dir ∧
      (Document.writeTempPages envOK twoReaderState).2.doc = { twoReaderState.doc with tmp := dir } ∧
      (Document.writeTempPages envOK twoReaderState).2.trace =
        twoReaderState.trace ++ Event.mkTemp envOK.TempDir "temp" (.ok dir) ::
          (readerIdx twoReaderState.heap twoReaderState.doc.pages 0).map (fun ip =>
            Event.writeFile (tempPageName envOK.TempDir dir ip.1)
              (twoReaderState.heap ip.2).buf none) ∧
      (readerIdx twoReaderState.heap twoReaderState.doc.pages 0).length =
        twoReaderState.doc.readers twoReaderState.heap ∧
      (∀ i p, (i, p) ∈ readerIdx twoReaderState.heap twoReaderState.doc.pages 0 ↔
        twoReaderState.doc.pages[i]? = some p ∧ (twoReaderState.heap p).reader = true) ∧
      (readerIdx twoReaderState.heap twoReaderState.doc.pages 0).Pairwise
        (fun a b => a.1 < b.1) ∧
      ((readerIdx twoReaderState.heap twoReaderState.doc.pages 0).map fun ip =>
        tempPageName envOK.TempDir dir ip.1).Nodup ∧
      (∀ n, 8 ≤ (fmtD08 n).data.length ∧ (fmtD08 n).data.all Char.isDigit = true ∧
        decodeDec (fmtD08 n).data = n) ∧
      (∀ p ∈ twoReaderState.doc.pages, (twoReaderState.heap p).reader = true →
        ∃ j, twoReaderState.doc.pages[j]? = some p ∧
          ((Document.writeTempPages envOK twoReaderState).2.heap p).filename =
            tempPageName envOK.TempDir dir j ∧
          ∀ k, twoReaderState.doc.pages[k]? = some p → k ≤ j) ∧
      (∀ p, (Document.writeTempPages envOK twoReaderState).2.heap p =
        { twoReaderState.heap p with
          filename := ((Document.writeTempPages envOK twoReaderState).2.heap p).filename }) ∧
      (∀ p, (twoReaderState.heap p).reader = false →
        (Document.writeTempPages envOK twoReaderState).2.heap p = twoReaderState.heap p) :=
  ⟨by decide, by decide, C9_temp_files envOK twoReaderState (by decide)⟩

/-! ## The life of the temp directory -/

theorem writeTempLoop_trace (env : Env) (tmp : String) (pages : List Ptr) :
    ∀ (n : Nat) (h : Heap) (tr : List Event),
      ∃ new, (writeTempLoop env tmp pages n h tr).2.2 = tr ++ new ∧
        removalsOf new = [] ∧ runsOf new = [] ∧ tempDirsOf new = [] := by
  induction pages with
  | nil => intro n h tr; exact ⟨[], by simp [writeTempLoop], rfl, rfl, rfl⟩
  | cons pg rest ih =>
    intro n h tr
    by_cases hr : (h pg).reader = true
    · simp only [writeTempLoop, hr, if_true]
      cases he : env.writeFile tr (tempPageName env.TempDir tmp n)
          (setFilename h pg (tempPageName env.TempDir tmp n) pg).buf with
      | some e =>
        exact ⟨[Event.writeFile (tempPageName env.TempDir tmp n)
          (setFilename h pg (tempPageName env.TempDir tmp n) pg).buf (some e)],
          rfl, rfl, rfl, rfl⟩
      | none =>
        obtain ⟨new, hn, h1, h2, h3⟩ := ih (n + 1)
          (setFilename h pg (tempPageName env.TempDir tmp n))
          (tr ++ [Event.writeFile (tempPageName env.TempDir tmp n)
            (setFilename h pg (tempPageName env.TempDir tmp n) pg).buf none])
        refine ⟨Event.writeFile (tempPageName env.TempDir tmp n)
          (setFilename h pg (tempPageName env.TempDir tmp n) pg).buf none :: new, ?_, ?_, ?_, ?_⟩
        · simp only []
          rw [hn]; simp
        · simpa [removalsOf] using h1
        · simpa [runsOf] using h2
        · simpa [tempDirsOf] using h3
    · simp only [writeTempLoop, hr, if_false]
      exact ih (n + 1) h tr

/-- With two or more reader pages `createPDF` never asks for a directory to be
removed and never launches the renderer: either writing the temp pages fails
and it returns at once, or the pages are written and `buffer.ReadFrom(stdin)`
faults on the nil reader. -/
theorem createPDF_many_readers (env : Env) (s : State) (h2 : 2 ≤ s.doc.readers s.heap) :
    ((∃ e, (Document.createPDF env s).1 = .ret (none, some e)) ∨
      ∃ m, (Document.createPDF env s).1 = .panic m) ∧
    ∃ new, (Document.createPDF env s).2.trace = s.trace ++ new ∧
      removalsOf new = [] ∧ runsOf new = [] := by
  have hne : ¬ s.doc.readers s.heap = 1 := by omega
  have hgt : s.doc.readers s.heap > 1 := by omega
  have htr : ∃ new, (Document.writeTempPages env s).2.trace = s.trace ++ new ∧
      removalsOf new = [] ∧ runsOf new = [] := by
    unfold Document.writeTempPages
    cases hm : env.mkTemp s.trace env.TempDir "temp" with
    | error e => exact ⟨[Event.mkTemp env.TempDir "temp" (.error e)], rfl, rfl, rfl⟩
    | ok dir =>
      obtain ⟨new, hn, h1, h2, _⟩ := writeTempLoop_trace env dir s.doc.pages 0 s.heap
        (s.trace ++ [Event.mkTemp env.TempDir "temp" (.ok dir)])
      refine ⟨Event.mkTemp env.TempDir "temp" (.ok dir) :: new, ?_, ?_, ?_⟩
      · simp only []
        rw [hn]; simp
      · simpa [removalsOf] using h1
      · simpa [runsOf] using h2
  rcases hw : Document.writeTempPages env s with ⟨err, s1⟩
  rw [hw] at htr
  cases err with
  | some e =>
    have hc : Document.createPDF env s =
        (.ret (none, some ("Error writing temp files: " ++ e)), s1) := by
      simp [Document.createPDF, selectStdin, hne, hgt, hw]
    rw [hc]
    exact ⟨Or.inl ⟨_, rfl⟩, htr⟩
  | none =>
    have hc : Document.createPDF env s =
        (.panic "runtime error: invalid memory address or nil pointer dereference", s1) := by
      simp [Document.createPDF, selectStdin, hne, hgt, hw, readFrom]
    rw [hc]
    exact ⟨Or.inr ⟨_, rfl⟩, htr⟩

/-- C5, at a Document of a file page and two reader pages.  When the first temp
file cannot be written, `Write` returns the error with the temp directory
created and never removed; when the temp files are written, `createPDF`
faults at `buffer.ReadFrom(stdin)` before any renderer runs, again with the
directory created and never removed. -/
theorem C5_temp_directory_left_behind :
    (Document.Write envNoWrite goodWriter twoReaderState).1 =
      .ret (some "Error writing temp files: Error writing temp file: no such file or directory") ∧
    tempDirsOf (Document.Write envNoWrite goodWriter twoReaderState).2.trace =
      ["./temp123456789"] ∧
    removalsOf (Document.Write envNoWrite goodWriter twoReaderState).2.trace = [] ∧
    (Document.Write envOK goodWriter twoReaderState).1 =
      .panic "runtime error: invalid memory address or nil pointer dereference" ∧
    tempDirsOf (Document.Write envOK goodWriter twoReaderState).2.trace =
      ["./temp123456789"] ∧
    runsOf (Document.Write envOK goodWriter twoReaderState).2.trace = [] ∧
    removalsOf (Document.Write envOK goodWriter twoReaderState).2.trace = [] := by
  decide

/-- C10, at a Document of a file page and two reader pages with the temp root
`/tmp`: temp directory creation returns `/tmp/temp123456789`, stored in
`doc.tmp`, but the reader pages are pointed at (and their files written to)
`/tmp//tmp/temp123456789/page0000000N.html`, the root prefixed a second time,
not `/tmp/temp123456789/page0000000N.html`; and the directory the cleanup
asks to remove is `/tmp//tmp/temp123456789`, not the one created. -/
theorem C10_temp_root_prefixed_twice :
    tempDirsOf (Document.writeTempPages envTmpRoot twoReaderState).2.trace =
      ["/tmp/temp123456789"] ∧
    (Document.writeTempPages envTmpRoot twoReaderState).2.doc.tmp = "/tmp/temp123456789" ∧
    ((Document.writeTempPages envTmpRoot twoReaderState).2.heap 1).filename =
      "/tmp//tmp/temp123456789/page00000001.html" ∧
    ((Document.writeTempPages envTmpRoot twoReaderState).2.heap 1).filename ≠
      (Document.writeTempPages envTmpRoot twoReaderState).2.doc.tmp ++ "/page" ++ fmtD08 1 ++
        ".html" ∧
    filesWritten (Document.writeTempPages envTmpRoot twoReaderState).2.trace =
      [("/tmp//tmp/temp123456789/page00000001.html", htmlBytes),
       ("/tmp//tmp/temp123456789/page00000002.html", htmlBytes)] ∧
    removalsOf (cleanup envTmpRoot (Document.writeTempPages envTmpRoot twoReaderState).2
      pdfMagic).2.trace = ["/tmp//tmp/temp123456789"] := by
  decide

end Wkhtmltopdf
